import Mathlib

/-!
Verification of the soliloquio authentication subsystem.

The Rust sources are embedded shallowly:
* timestamps (`chrono::NaiveDateTime`, unix seconds) become `Int`;
* UUIDs become `Nat` (store keys) or their canonical `String` form (claims);
* the database tables owned by the refresh-token and verification-token
  stores become lists of records, with SeaORM's `find/one`, `update` (by
  primary key) and `delete_many` modelled as `List.find?`, `List.map` and
  `List.filter`;
* fallible operations return `Except` and each store operation returns the
  new table state next to its result.
-/

/-- The `Claims` struct from `packages/services/src/authentication/claims.rs`:
issuer, subject (the user id's canonical string form), expiry, issued-at and
token id. -/
structure Claims where
  iss : String
  sub : String
  exp : Int
  iat : Int
  jti : String
deriving DecidableEq, Repr

/-- Modelled from the spec: the third-party JWT codec used by `token.rs` is not
part of this repository.  Per the spec the codec signs the serialized claims
with a shared secret; the tag here is a deterministic stand-in for
HMAC-SHA256 over (secret, payload). -/
def macTag (secret : String) (c : Claims) : String :=
  secret ++ "|" ++ c.iss ++ "|" ++ c.sub ++ "|" ++ toString c.exp ++ "|" ++
    toString c.iat ++ "|" ++ c.jti

/-- Modelled from the spec: a signed token is its claims payload together with
the signature tag; the compact string serialization is treated as this
structure. -/
structure Jwt where
  payload : Claims
  tag : String
deriving DecidableEq, Repr

/-- Modelled from the spec: `jsonwebtoken::encode` — sign the claims with the
secret. -/
def jwtEncode (secret : String) (c : Claims) : Jwt :=
  { payload := c, tag := macTag secret c }

/-- Modelled from the spec: `jsonwebtoken::decode` with default validation —
check the signature first, then reject an `exp` in the past relative to decode
time.  Error messages follow the library's `ErrorKind` display strings. -/
def jwtDecode (secret : String) (now : Int) (t : Jwt) : Except String Claims :=
  if t.tag = macTag secret t.payload then
    if t.payload.exp < now then .error "ExpiredSignature"
    else .ok t.payload
  else .error "InvalidSignature"

/-- Function `generate_token` from `token.rs`: claims carry the host name as issuer,
the user id string as subject, `exp = now + ttl` seconds, `iat = now` and a
fresh `jti`; the result is signed with the configured secret. -/
def generate_token (secret host_name user_id : String) (now ttl : Int)
    (jti : String) : Jwt :=
  jwtEncode secret
    { iss := host_name, sub := user_id, exp := now + ttl, iat := now, jti := jti }

/-- Method `Token::get_claims` from `token.rs` (via `TokenTrait::verify`): decode the
token against the configured secret.  Bearer-marker stripping happens at the
string layer and is modelled separately by `get_token_string`. -/
def get_claims (secret : String) (now : Int) (t : Jwt) : Except String Claims :=
  jwtDecode secret now t

/-- Predicate modelling Rust char::is_whitespace: the Unicode `White_Space` property. -/
def rustWhitespace (c : Char) : Bool :=
  let n := c.toNat
  (decide (9 ≤ n) && decide (n ≤ 13)) || n == 32 || n == 0x85 || n == 0xA0 ||
    n == 0x1680 || (decide (0x2000 ≤ n) && decide (n ≤ 0x200A)) ||
    n == 0x2028 || n == 0x2029 || n == 0x202F || n == 0x205F || n == 0x3000

/-- Worker for `str::split_whitespace`: `acc` holds the current word reversed. -/
def splitWsAux : List Char → List Char → List (List Char)
  | [], acc => if acc.isEmpty then [] else [acc.reverse]
  | c :: cs, acc =>
    if rustWhitespace c then
      if acc.isEmpty then splitWsAux cs [] else acc.reverse :: splitWsAux cs []
    else splitWsAux cs (c :: acc)

/-- Function modelling Rust str::split_whitespace: the whitespace-separated words, with empty
words skipped. -/
def split_whitespace (s : List Char) : List (List Char) :=
  splitWsAux s []

/-- Function modelling Rust str::starts_with for a literal pattern, on character lists. -/
def startsWithList : List Char → List Char → Bool
  | [], _ => true
  | _ :: _, [] => false
  | p :: ps, c :: cs => p == c && startsWithList ps cs

/-- The literal `"Bearer "` pattern from `Token::get_token_string`. -/
def bearerMarker : List Char := ['B', 'e', 'a', 'r', 'e', 'r', ' ']

/-- Method `Token::get_token_string` from `token.rs`: when the stored string starts
with `"Bearer "`, return the second whitespace-separated word, falling back to
the whole original string when there is none; otherwise return the string
unchanged. -/
def get_token_string (s : List Char) : List Char :=
  if startsWithList bearerMarker s then
    match (split_whitespace s)[1]? with
    | some w => w
    | none => s
  else s

/-- Function `hash_token` from `token.rs`: SHA-256 of the token bytes, base64-encoded.
The digest itself is external crypto; it is modelled by a deterministic tag
over the input (the claims here rely on determinism only, never on
collision-resistance). -/
def hash_token (token : String) : String :=
  "sha256b64:" ++ token

/-- Modelled from the spec: the `models` entity crate is not under the sources
provided; per the spec's schema, `refresh_tokens(id, user_id, token_hash,
device_info, expires_at, created_at, last_used_at)` with primary key `id`. -/
structure RefreshTokenRecord where
  id : Nat
  user_id : Nat
  token_hash : String
  device_info : Option String
  expires_at : Int
  created_at : Int
  last_used_at : Option Int
deriving DecidableEq, Repr

/-- Function `create_refresh_token` from `refresh_token.rs`: generate a raw refresh
token (a signed token whose `exp` claim is `now` plus the configured lifetime
in days), store a record holding its hash, the owner, optional device info,
that expiry and a null `last_used_at`, and return the raw token.  Freshness of
the generated token and of the new row's id is exposed as the `rawToken` and
`freshId` parameters. -/
def create_refresh_token (db : List RefreshTokenRecord) (freshId : Nat)
    (user_id : Nat) (device_info : Option String) (rawToken : String)
    (now days : Int) : List RefreshTokenRecord × String :=
  (db ++ [{ id := freshId
            user_id := user_id
            token_hash := hash_token rawToken
            device_info := device_info
            expires_at := now + days * 86400
            created_at := now
            last_used_at := none }], rawToken)

/-- The row filter used by `validate_refresh_token`: hash matches and
`expires_at > now`. -/
def refreshMatch (token_hash : String) (now : Int) (r : RefreshTokenRecord) :
    Bool :=
  decide (r.token_hash = token_hash) && decide (now < r.expires_at)

/-- Function `validate_refresh_token` from `refresh_token.rs`: hash the input, look for
a record with that hash whose `expires_at` is still in the future; on a miss
return the generic invalid-or-expired error, on a hit set the stored row's
`last_used_at` to now (an update by primary key) and return the record as
fetched. -/
def validate_refresh_token (db : List RefreshTokenRecord) (token : String)
    (now : Int) : List RefreshTokenRecord × Except String RefreshTokenRecord :=
  let token_hash := hash_token token
  match db.find? (refreshMatch token_hash now) with
  | none => (db, .error "Invalid or expired refresh token")
  | some r =>
      (db.map (fun x => if x.id = r.id then { x with last_used_at := some now }
                        else x),
       .ok r)

/-- Function `revoke_refresh_token` from `refresh_token.rs`: delete every record whose
hash matches the presented token; always succeeds. -/
def revoke_refresh_token (db : List RefreshTokenRecord) (token : String) :
    List RefreshTokenRecord × Except String Unit :=
  let token_hash := hash_token token
  (db.filter (fun r => !(decide (r.token_hash = token_hash))), .ok ())

/-- Function `revoke_all_refresh_tokens` from `refresh_token.rs`: delete every record
belonging to the user; always succeeds. -/
def revoke_all_refresh_tokens (db : List RefreshTokenRecord) (user_id : Nat) :
    List RefreshTokenRecord × Except String Unit :=
  (db.filter (fun r => !(decide (r.user_id = user_id))), .ok ())

/-- Enum `TokenKind` from the entity crate (spec: kind of a verification token is
either email-verification or password-reset). -/
inductive TokenKind
  | emailVerification
  | passwordReset
deriving DecidableEq, Repr

/-- Modelled from the spec: the `models` entity crate is not under the sources
provided; per the spec's schema, `verification_tokens(id, user_id, token_hash,
kind, expires_at, used_at)` with primary key `id`. -/
structure VerificationTokenRecord where
  id : Nat
  user_id : Nat
  token_hash : String
  kind : TokenKind
  expires_at : Int
  used_at : Option Int
deriving DecidableEq, Repr

/-- The private `hash_token` of `verification_token/service.rs`: SHA-256 of
the raw token, hex-encoded.  As with `hash_token`, the digest is modelled by a
deterministic tag over the input. -/
def vt_hash_token (raw : String) : String :=
  "sha256hex:" ++ raw

/-- Function `create_token` from `verification_token/service.rs`: mint a fresh random
raw token (a UUID, exposed here as the `rawToken` parameter), store its hash
with the kind and `expires_at = now + expires_in_seconds`, and return the raw
token. -/
def create_token (db : List VerificationTokenRecord) (freshId : Nat)
    (user_id : Nat) (kind : TokenKind) (expires_in_seconds : Int)
    (rawToken : String) (now : Int) :
    List VerificationTokenRecord × String :=
  (db ++ [{ id := freshId
            user_id := user_id
            token_hash := vt_hash_token rawToken
            kind := kind
            expires_at := now + expires_in_seconds
            used_at := none }], rawToken)

/-- The row filter used by `validate_token`: hash and kind both match. -/
def vtMatch (token_hash : String) (kind : TokenKind)
    (r : VerificationTokenRecord) : Bool :=
  decide (r.token_hash = token_hash) && decide (r.kind = kind)

/-- Function `validate_token` from `verification_token/service.rs`: hash the input and
look up by hash and kind; fail when no row matches, then when the row is
already used, then when it is expired; otherwise set the stored row's
`used_at` to now (update by primary key) and return the record as fetched
before that update. -/
def validate_token (db : List VerificationTokenRecord) (raw : String)
    (kind : TokenKind) (now : Int) :
    List VerificationTokenRecord × Except String VerificationTokenRecord :=
  let token_hash := vt_hash_token raw
  match db.find? (vtMatch token_hash kind) with
  | none => (db, .error "Invalid or expired token")
  | some record =>
      if record.used_at.isSome then (db, .error "Token already used")
      else if record.expires_at < now then (db, .error "Token expired")
      else
        (db.map (fun x => if x.id = record.id then { x with used_at := some now }
                          else x),
         .ok record)

/-- Type `AuthenticationError` from `authenticator.rs`. -/
inductive AuthenticationError
  | badCredentials (message : String)
  | dbError (message : String)
deriving DecidableEq, Repr

/-- Hex-digit test used by the canonical UUID format. -/
def isHexDigit (c : Char) : Bool :=
  c.isDigit || (decide ('a' ≤ c) && decide (c ≤ 'f')) ||
    (decide ('A' ≤ c) && decide (c ≤ 'F'))

/-- Character admissible at position `i` of a canonical hyphenated UUID. -/
def isUuidChar (i : Nat) (c : Char) : Bool :=
  if i = 8 || i = 13 || i = 18 || i = 23 then c == '-' else isHexDigit c

/-- Modelled from the spec: `str::parse::<Uuid>` of the `uuid` crate (external
to this repository) — accept the canonical hyphenated 36-character form, which
is exactly the form `Uuid::to_string` produces for the subject claim. -/
def parseUuid (s : String) : Option String :=
  if decide (s.length = 36) && s.toList.enum.all (fun p => isUuidChar p.1 p.2)
  then some s else none

/-- Method `Token::get_user_id` from `token.rs`: decode the claims, then parse the
subject as a UUID, failing with the fixed invalid-user-id message when the
subject is not one. -/
def get_user_id (secret : String) (now : Int) (t : Jwt) :
    Except String String :=
  match get_claims secret now t with
  | .error e => .error e
  | .ok claims =>
      match parseUuid claims.sub with
      | none => .error "Invalid user ID in token"
      | some uid => .ok uid

/-- The user rows visible to the authenticator (`models::users`, spec §3): the
auth core reads only the id here. -/
structure UserModel where
  id : String
  email : String
deriving DecidableEq, Repr

/-- Function `get_user` from `authenticator.rs`: extract the user id from the token
(mapping any token failure into `badCredentials` with that failure's message),
then look the user up; a missing row yields `badCredentials` with the fixed
message `"User not found"`. -/
def get_user (secret : String) (now : Int) (t : Jwt)
    (users : List UserModel) : Except AuthenticationError UserModel :=
  match get_user_id secret now t with
  | .error m => .error (.badCredentials m)
  | .ok uid =>
      match users.find? (fun u => decide (u.id = uid)) with
      | some u => .ok u
      | none => .error (.badCredentials "User not found")

/-- A sample refresh-token row (hash of raw token `"t"`, expiring at time
100), used by the concrete witnesses below. -/
def sampleRefreshRecord : RefreshTokenRecord :=
  { id := 3, user_id := 9, token_hash := hash_token "t", device_info := none,
    expires_at := 100, created_at := 0, last_used_at := none }

/-- A sample verification-token row (hash of raw token `"v1"`, kind
email-verification, expiring at time 3600, unused), used by the concrete
witnesses below. -/
def sampleVtRecord : VerificationTokenRecord :=
  { id := 1, user_id := 7, token_hash := vt_hash_token "v1",
    kind := .emailVerification, expires_at := 3600, used_at := none }

/-! ## Helper lemmas -/

theorem splitWsAux_nonws (w : List Char)
    (hw : ∀ c ∈ w, rustWhitespace c = false) :
    ∀ acc : List Char, splitWsAux w acc =
      if acc.isEmpty && w.isEmpty then [] else [acc.reverse ++ w] := by
  induction w with
  | nil =>
    intro acc
    cases acc <;> simp [splitWsAux]
  | cons c cs ih =>
    intro acc
    have hc : rustWhitespace c = false := hw c (by simp)
    have hcs : ∀ x ∈ cs, rustWhitespace x = false :=
      fun x hx => hw x (by simp [hx])
    rw [splitWsAux, if_neg (by simp [hc]), ih hcs (c :: acc)]
    simp

theorem splitWsAux_ws (w : List Char)
    (hw : ∀ c ∈ w, rustWhitespace c = true) :
    splitWsAux w [] = [] := by
  induction w with
  | nil => rfl
  | cons c cs ih =>
    have hc : rustWhitespace c = true := hw c (by simp)
    have hcs : ∀ x ∈ cs, rustWhitespace x = true :=
      fun x hx => hw x (by simp [hx])
    rw [splitWsAux, if_pos (by simp [hc])]
    simpa using ih hcs

theorem splitWs_bearer (t : List Char) :
    split_whitespace (bearerMarker ++ t) =
      (['B', 'e', 'a', 'r', 'e', 'r'] : List Char) :: splitWsAux t [] := rfl

theorem startsWithList_append_self (l t : List Char) :
    startsWithList l (l ++ t) = true := by
  induction l with
  | nil => rfl
  | cons c cs ih => simp [startsWithList, ih]

/-! ## Claims about the token codec -/

/-- C1: decoding the token produced by `generate_token` under the same secret
returns exactly the encoded claims as long as the configured ttl has not
elapsed at decode time, and fails once `expires_at` is in the past at decode
time. -/
theorem token_roundtrip_until_ttl (secret host_name user_id jti : String)
    (now ttl d : Int) :
    (d ≤ now + ttl →
      get_claims secret d (generate_token secret host_name user_id now ttl jti) =
        .ok { iss := host_name, sub := user_id, exp := now + ttl, iat := now,
              jti := jti }) ∧
    (now + ttl < d →
      (get_claims secret d
          (generate_token secret host_name user_id now ttl jti)).isOk = false) := by
  constructor
  · intro hd
    have h : ¬ (now + ttl < d) := by omega
    simp [get_claims, generate_token, jwtEncode, jwtDecode, h]
  · intro hd
    simp [get_claims, generate_token, jwtEncode, jwtDecode, hd, Except.isOk,
      Except.toBool]

theorem token_roundtrip_until_ttl_witness :
    get_claims "s" 5 (generate_token "s" "h" "u" 0 10 "j") =
      .ok { iss := "h", sub := "u", exp := 10, iat := 0, jti := "j" } ∧
    (get_claims "s" 11 (generate_token "s" "h" "u" 0 10 "j")).isOk = false :=
  ⟨(token_roundtrip_until_ttl "s" "h" "u" "j" 0 10 5).1 (by decide),
   (token_roundtrip_until_ttl "s" "h" "u" "j" 0 10 11).2 (by decide)⟩

/-- C9: `get_token_string` returns the token word after a well-formed
`"Bearer "` value, leaves any string that does not start with `"Bearer "`
unchanged, and returns the entire original string, marker included, when
`"Bearer "` is followed by nothing or only whitespace. -/
theorem get_token_string_spec (w rest s : List Char) :
    (w ≠ [] → (∀ c ∈ w, rustWhitespace c = false) →
      get_token_string (bearerMarker ++ w) = w) ∧
    ((∀ c ∈ rest, rustWhitespace c = true) →
      get_token_string (bearerMarker ++ rest) = bearerMarker ++ rest) ∧
    (startsWithList bearerMarker s = false → get_token_string s = s) := by
  refine ⟨?_, ?_, ?_⟩
  · intro hne hw
    have h3 : splitWsAux w [] = [w] := by
      rw [splitWsAux_nonws w hw []]
      simp [hne]
    simp [get_token_string, startsWithList_append_self, splitWs_bearer, h3]
  · intro hw
    have h3 : splitWsAux rest [] = [] := splitWsAux_ws rest hw
    simp [get_token_string, startsWithList_append_self, splitWs_bearer, h3]
  · intro hs
    simp [get_token_string, hs]

theorem find?_append_of_none {α : Type} (p : α → Bool) (l₁ l₂ : List α)
    (h : l₁.find? p = none) : (l₁ ++ l₂).find? p = l₂.find? p := by
  induction l₁ with
  | nil => simp
  | cons a l ih =>
    cases hpa : p a with
    | true => simp [List.find?_cons, hpa] at h
    | false =>
      rw [List.find?_cons, hpa] at h
      rw [List.cons_append, List.find?_cons, hpa]
      exact ih h

theorem find?_map_of_pred {α : Type} (f : α → α) (p : α → Bool)
    (h : ∀ a, p (f a) = p a) :
    ∀ l : List α, (l.map f).find? p = (l.find? p).map f := by
  intro l
  induction l with
  | nil => rfl
  | cons a l ih =>
    cases hpa : p a with
    | true => simp [List.find?_cons, hpa, h a]
    | false => simp [List.find?_cons, hpa, h a, ih]

theorem get_token_string_spec_witness :
    get_token_string (bearerMarker ++ ['a']) = ['a'] ∧
    get_token_string (bearerMarker ++ [' ']) = bearerMarker ++ [' '] ∧
    get_token_string ['x'] = ['x'] :=
  ⟨(get_token_string_spec ['a'] [' '] ['x']).1 (by decide) (by decide),
   (get_token_string_spec ['a'] [' '] ['x']).2.1 (by decide),
   (get_token_string_spec ['a'] [' '] ['x']).2.2 (by decide)⟩

/-! ## Claims about the refresh-token store -/

theorem validate_refresh_token_isOk (token : String)
    (l : List RefreshTokenRecord) (n : Int) :
    (validate_refresh_token l token n).2.isOk = true ↔
      ∃ r ∈ l, r.token_hash = hash_token token ∧ n < r.expires_at := by
  cases hf : l.find? (refreshMatch (hash_token token) n) with
  | none =>
    simp only [validate_refresh_token, hf]
    constructor
    · intro h
      simp [Except.isOk, Except.toBool] at h
    · rintro ⟨r, hr, h1, h2⟩
      have h := List.find?_eq_none.mp hf r hr
      simp [refreshMatch, h1, h2] at h
  | some r =>
    simp only [validate_refresh_token, hf]
    constructor
    · intro _
      have h := List.find?_some hf
      simp only [refreshMatch, Bool.and_eq_true, decide_eq_true_eq] at h
      exact ⟨r, List.mem_of_find?_eq_some hf, h.1, h.2⟩
    · intro _
      rfl

/-- C2: `validate_refresh_token` succeeds iff a stored record exists whose
hash is the hash of the raw token and whose `expires_at` is strictly in the
future, and after `revoke_refresh_token` on that raw token it fails for the
same raw token (at any later decode time). -/
theorem validate_refresh_token_correct (db : List RefreshTokenRecord)
    (token : String) (now : Int) :
    ((validate_refresh_token db token now).2.isOk = true ↔
      ∃ r ∈ db, r.token_hash = hash_token token ∧ now < r.expires_at) ∧
    ∀ now', (validate_refresh_token
        (revoke_refresh_token db token).1 token now').2.isOk = false := by
  refine ⟨validate_refresh_token_isOk token db now, ?_⟩
  intro now'
  cases hOk : (validate_refresh_token
      (revoke_refresh_token db token).1 token now').2.isOk with
  | false => rfl
  | true =>
    obtain ⟨r, hr, h1, _⟩ :=
      (validate_refresh_token_isOk token (revoke_refresh_token db token).1
        now').mp hOk
    simp only [revoke_refresh_token, List.mem_filter, Bool.not_eq_eq_eq_not,
      Bool.not_true, decide_eq_false_iff_not] at hr
    exact absurd h1 hr.2

theorem validate_refresh_token_correct_witness :
    (validate_refresh_token [sampleRefreshRecord] "t" 0).2.isOk = true ∧
    (validate_refresh_token
      (revoke_refresh_token [sampleRefreshRecord] "t").1 "t" 5).2.isOk =
      false :=
  ⟨(validate_refresh_token_correct [sampleRefreshRecord] "t" 0).1.mpr
      ⟨sampleRefreshRecord, by simp, rfl, by decide⟩,
   (validate_refresh_token_correct [sampleRefreshRecord] "t" 0).2 5⟩

/-- C5: `revoke_refresh_token` and `revoke_all_refresh_tokens` are idempotent:
for any raw token, user id and store state, the second call leaves the state
produced by the first call unchanged and returns success, matching record or
not. -/
theorem revoke_idempotent (db : List RefreshTokenRecord) (token : String)
    (user_id : Nat) :
    revoke_refresh_token (revoke_refresh_token db token).1 token =
      revoke_refresh_token db token ∧
    (revoke_refresh_token (revoke_refresh_token db token).1 token).2 =
      .ok () ∧
    revoke_all_refresh_tokens (revoke_all_refresh_tokens db user_id).1
        user_id = revoke_all_refresh_tokens db user_id ∧
    (revoke_all_refresh_tokens (revoke_all_refresh_tokens db user_id).1
        user_id).2 = .ok () := by
  refine ⟨?_, rfl, ?_, rfl⟩
  · simp [revoke_refresh_token, List.filter_filter]
  · simp [revoke_all_refresh_tokens, List.filter_filter]

/-- C6: after creating three refresh tokens for user `u` and one for a
different user `v`, `revoke_all_refresh_tokens u` leaves exactly `v`'s record
in the store, and `v`'s raw token still validates. -/
theorem revoke_all_frame (u v idu1 idu2 idu3 idv : Nat)
    (t1 t2 t3 t4 : String) (d1 d2 d3 d4 : Option String) (now days : Int)
    (huv : u ≠ v) (hdays : 0 < days) :
    (revoke_all_refresh_tokens
      (create_refresh_token
        (create_refresh_token
          (create_refresh_token
            (create_refresh_token [] idu1 u d1 t1 now days).1
            idu2 u d2 t2 now days).1
          idu3 u d3 t3 now days).1
        idv v d4 t4 now days).1 u).1 =
      [{ id := idv, user_id := v, token_hash := hash_token t4,
         device_info := d4, expires_at := now + days * 86400,
         created_at := now, last_used_at := none }] ∧
    (validate_refresh_token
      (revoke_all_refresh_tokens
        (create_refresh_token
          (create_refresh_token
            (create_refresh_token
              (create_refresh_token [] idu1 u d1 t1 now days).1
              idu2 u d2 t2 now days).1
            idu3 u d3 t3 now days).1
          idv v d4 t4 now days).1 u).1 t4 now).2.isOk = true := by
  have hvu : ¬ (v = u) := fun h => huv h.symm
  have hstate : (revoke_all_refresh_tokens
      (create_refresh_token
        (create_refresh_token
          (create_refresh_token
            (create_refresh_token [] idu1 u d1 t1 now days).1
            idu2 u d2 t2 now days).1
          idu3 u d3 t3 now days).1
        idv v d4 t4 now days).1 u).1 =
      [{ id := idv, user_id := v, token_hash := hash_token t4,
         device_info := d4, expires_at := now + days * 86400,
         created_at := now, last_used_at := none }] := by
    simp [create_refresh_token, revoke_all_refresh_tokens, List.filter, hvu]
  have hlt : now < now + days * 86400 := by omega
  refine ⟨hstate, ?_⟩
  rw [hstate]
  simp [validate_refresh_token, refreshMatch, List.find?, hlt, Except.isOk,
    Except.toBool]

theorem revoke_all_frame_witness :
    (revoke_all_refresh_tokens
      (create_refresh_token
        (create_refresh_token
          (create_refresh_token
            (create_refresh_token [] 10 0 none "t1" 0 7).1
            11 0 none "t2" 0 7).1
          12 0 none "t3" 0 7).1
        13 1 none "t4" 0 7).1 0).1 =
      [{ id := 13, user_id := 1, token_hash := hash_token "t4",
         device_info := none, expires_at := 0 + 7 * 86400,
         created_at := 0, last_used_at := none }] ∧
    (validate_refresh_token
      (revoke_all_refresh_tokens
        (create_refresh_token
          (create_refresh_token
            (create_refresh_token
              (create_refresh_token [] 10 0 none "t1" 0 7).1
              11 0 none "t2" 0 7).1
            12 0 none "t3" 0 7).1
          13 1 none "t4" 0 7).1 0).1 "t4" 0).2.isOk = true :=
  revoke_all_frame 0 1 10 11 12 13 "t1" "t2" "t3" "t4" none none none none
    0 7 (by decide) (by decide)

/-- C7: creating a refresh token for user `u` with the configured multi-day
lifetime and immediately validating it finds the record, sets the stored
row's `last_used_at` to now (so it becomes non-null), and returns the record
as fetched, whose `user_id` equals `u`. -/
theorem create_then_validate (db : List RefreshTokenRecord) (freshId u : Nat)
    (dev : Option String) (raw : String) (now days : Int)
    (hfresh : ∀ r ∈ db, r.token_hash ≠ hash_token raw)
    (hid : ∀ r ∈ db, r.id ≠ freshId)
    (hdays : 0 < days) :
    validate_refresh_token
        (create_refresh_token db freshId u dev raw now days).1 raw now =
      (db ++ [{ id := freshId, user_id := u, token_hash := hash_token raw,
                device_info := dev, expires_at := now + days * 86400,
                created_at := now, last_used_at := some now }],
       .ok { id := freshId, user_id := u, token_hash := hash_token raw,
             device_info := dev, expires_at := now + days * 86400,
             created_at := now, last_used_at := none }) := by
  have hlt : now < now + days * 86400 := by omega
  have hnone : db.find? (refreshMatch (hash_token raw) now) = none := by
    rw [List.find?_eq_none]
    intro r hr
    simp [refreshMatch, hfresh r hr]
  have hfind : ((create_refresh_token db freshId u dev raw now days).1).find?
      (refreshMatch (hash_token raw) now) =
      some { id := freshId, user_id := u, token_hash := hash_token raw,
             device_info := dev, expires_at := now + days * 86400,
             created_at := now, last_used_at := none } := by
    simp only [create_refresh_token]
    rw [find?_append_of_none _ _ _ hnone]
    simp [List.find?, refreshMatch, hlt]
  have hmap : List.map (fun x : RefreshTokenRecord =>
      if x.id = freshId then { x with last_used_at := some now } else x) db =
      db :=
    (List.map_congr_left fun a ha => by simp [hid a ha]).trans (List.map_id db)
  simp only [validate_refresh_token]
  rw [hfind]
  simp [create_refresh_token, hmap]

theorem create_then_validate_witness :
    validate_refresh_token
        (create_refresh_token [] 5 7 none "raw" 0 7).1 "raw" 0 =
      ([] ++ [{ id := 5, user_id := 7, token_hash := hash_token "raw",
                device_info := none, expires_at := 0 + 7 * 86400,
                created_at := 0, last_used_at := some 0 }],
       .ok { id := 5, user_id := 7, token_hash := hash_token "raw",
             device_info := none, expires_at := 0 + 7 * 86400,
             created_at := 0, last_used_at := none }) :=
  create_then_validate [] 5 7 none "raw" 0 7 (by simp) (by simp) (by decide)

/-! ## Claims about the verification-token store -/

theorem validate_token_success (db : List VerificationTokenRecord)
    (raw : String) (kind : TokenKind) (now : Int)
    (r0 : VerificationTokenRecord)
    (hfind : db.find? (vtMatch (vt_hash_token raw) kind) = some r0)
    (hunused : r0.used_at = none)
    (hunexp : ¬ r0.expires_at < now) :
    validate_token db raw kind now =
      (db.map (fun x => if x.id = r0.id then { x with used_at := some now }
                        else x),
       .ok r0) := by
  simp only [validate_token]
  rw [hfind]
  simp [hunused, hunexp]

/-- C3: a verification token with a matching, unexpired, unused record is
consumable at most once: the first matching `validate_token` call succeeds and
marks the stored row's `used_at`, and every subsequent call on the same raw
token fails with the distinct already-used error, leaving the store
unchanged. -/
theorem validate_token_single_use (db : List VerificationTokenRecord)
    (raw : String) (kind : TokenKind) (now : Int)
    (r0 : VerificationTokenRecord)
    (hfind : db.find? (vtMatch (vt_hash_token raw) kind) = some r0)
    (hunused : r0.used_at = none)
    (hunexp : ¬ r0.expires_at < now) :
    (validate_token db raw kind now).2 = .ok r0 ∧
    (validate_token db raw kind now).1.find?
        (vtMatch (vt_hash_token raw) kind) =
      some { r0 with used_at := some now } ∧
    ∀ now', validate_token (validate_token db raw kind now).1 raw kind now' =
      ((validate_token db raw kind now).1, .error "Token already used") := by
  have hsucc := validate_token_success db raw kind now r0 hfind hunused hunexp
  have hinv : ∀ a : VerificationTokenRecord,
      vtMatch (vt_hash_token raw) kind
        (if a.id = r0.id then { a with used_at := some now } else a) =
      vtMatch (vt_hash_token raw) kind a := by
    intro a
    by_cases h : a.id = r0.id <;> simp [vtMatch, h]
  have hfind2' : (List.map (fun x : VerificationTokenRecord =>
        if x.id = r0.id then { x with used_at := some now } else x) db).find?
      (vtMatch (vt_hash_token raw) kind) =
      some { r0 with used_at := some now } := by
    rw [find?_map_of_pred _ _ hinv db, hfind]
    simp
  have hpost : (validate_token db raw kind now).1 =
      List.map (fun x : VerificationTokenRecord =>
        if x.id = r0.id then { x with used_at := some now } else x) db := by
    simp [hsucc]
  refine ⟨by simp [hsucc], by rw [hpost]; exact hfind2', ?_⟩
  intro now'
  rw [hpost]
  simp only [validate_token]
  rw [hfind2']
  simp

theorem validate_token_single_use_witness :
    (validate_token [sampleVtRecord] "v1" TokenKind.emailVerification 5).2 =
      .ok sampleVtRecord ∧
    validate_token
        (validate_token [sampleVtRecord] "v1"
          TokenKind.emailVerification 5).1 "v1"
        TokenKind.emailVerification 9 =
      ((validate_token [sampleVtRecord] "v1"
          TokenKind.emailVerification 5).1,
       .error "Token already used") :=
  ⟨(validate_token_single_use [sampleVtRecord] "v1"
      TokenKind.emailVerification 5 sampleVtRecord rfl rfl (by decide)).1,
   (validate_token_single_use [sampleVtRecord] "v1"
      TokenKind.emailVerification 5 sampleVtRecord rfl rfl (by decide)).2.2 9⟩

/-- C4: a verification token created with kind `kb` never validates a request
expecting a different kind `ka`, even while otherwise valid, unused and
unexpired — the lookup misses and the generic invalid-or-expired error is
returned, at any validation time. -/
theorem validate_token_kind_mismatch (db : List VerificationTokenRecord)
    (freshId user_id : Nat) (kb ka : TokenKind) (ttl : Int) (raw : String)
    (now now' : Int)
    (hne : ka ≠ kb)
    (hfresh : ∀ r ∈ db, r.token_hash ≠ vt_hash_token raw) :
    validate_token (create_token db freshId user_id kb ttl raw now).1 raw ka
        now' =
      ((create_token db freshId user_id kb ttl raw now).1,
       .error "Invalid or expired token") := by
  have hdb : db.find? (vtMatch (vt_hash_token raw) ka) = none := by
    rw [List.find?_eq_none]
    intro r hr
    simp [vtMatch, hfresh r hr]
  have hnone : ((create_token db freshId user_id kb ttl raw now).1).find?
      (vtMatch (vt_hash_token raw) ka) = none := by
    simp only [create_token]
    rw [find?_append_of_none _ _ _ hdb]
    simp [List.find?, vtMatch, Ne.symm hne]
  simp only [validate_token]
  rw [hnone]

theorem validate_token_kind_mismatch_witness :
    validate_token
        (create_token [] 1 7 TokenKind.emailVerification 3600 "v1" 0).1
        "v1" TokenKind.passwordReset 5 =
      ((create_token [] 1 7 TokenKind.emailVerification 3600 "v1" 0).1,
       .error "Invalid or expired token") :=
  validate_token_kind_mismatch [] 1 7 TokenKind.emailVerification
    TokenKind.passwordReset 3600 "v1" 0 5 (by decide) (by simp)

/-- C10: a successful `validate_token` returns the pre-consumption snapshot
of the record — the returned record's `used_at` is still `none` — even though
the stored row's `used_at` has been set to the validation time before the
function returns. -/
theorem validate_token_returns_snapshot (db : List VerificationTokenRecord)
    (raw : String) (kind : TokenKind) (now : Int)
    (r0 : VerificationTokenRecord)
    (hfind : db.find? (vtMatch (vt_hash_token raw) kind) = some r0)
    (hunused : r0.used_at = none)
    (hunexp : ¬ r0.expires_at < now) :
    ∃ ret, (validate_token db raw kind now).2 = .ok ret ∧
      ret.used_at = none ∧
      { ret with used_at := some now } ∈ (validate_token db raw kind now).1 := by
  have hsucc := validate_token_success db raw kind now r0 hfind hunused hunexp
  refine ⟨r0, by simp [hsucc], hunused, ?_⟩
  simp only [hsucc]
  have hmem : r0 ∈ db := List.mem_of_find?_eq_some hfind
  have hfr0 : ({ r0 with used_at := some now } : VerificationTokenRecord) =
      (fun x : VerificationTokenRecord =>
        if x.id = r0.id then { x with used_at := some now } else x) r0 := by
    simp
  rw [hfr0]
  exact List.mem_map_of_mem _ hmem

theorem validate_token_returns_snapshot_witness :
    ∃ ret, (validate_token [sampleVtRecord] "v1"
        TokenKind.emailVerification 5).2 = .ok ret ∧
      ret.used_at = none ∧
      { ret with used_at := some 5 } ∈
        (validate_token [sampleVtRecord] "v1"
          TokenKind.emailVerification 5).1 :=
  validate_token_returns_snapshot [sampleVtRecord] "v1"
    TokenKind.emailVerification 5 sampleVtRecord rfl rfl (by decide)

/-! ## Claims about the authenticator -/

/-- C8 counterexample: for a correctly signed, unexpired token whose subject
has no backing user row, `get_user` fails with the fixed message
`"User not found"`, while the expired-token bad-credentials failure of the
very same token carries a different message; the wordings surfaced at the API
boundary are therefore not identical, refuting the claim as stated. -/
theorem get_user_message_not_uniform :
    get_user "s" 0
        (generate_token "s" "h" "00000000-0000-0000-0000-000000000000" 0 100
          "j") [] =
      .error (.badCredentials "User not found") ∧
    get_user "s" 200
        (generate_token "s" "h" "00000000-0000-0000-0000-000000000000" 0 100
          "j") [] =
      .error (.badCredentials "ExpiredSignature") ∧
    "User not found" ≠ "ExpiredSignature" :=
  ⟨rfl, rfl, by decide⟩

/-- C8 (amended): when `get_user` receives a well-formed, correctly signed,
unexpired token whose subject has no backing user row, it fails with the same
`badCredentials` variant used for decode failures — the distinct surfacing is
only a log line — but carrying the fixed, distinct message
`"User not found"`, which the API boundary forwards verbatim. -/
theorem get_user_user_not_found (secret : String) (now : Int) (t : Jwt)
    (uid : String) (users : List UserModel)
    (hok : get_user_id secret now t = .ok uid)
    (hnone : ∀ u ∈ users, u.id ≠ uid) :
    get_user secret now t users = .error (.badCredentials "User not found") := by
  simp only [get_user, hok]
  have hfind : users.find? (fun u => decide (u.id = uid)) = none := by
    rw [List.find?_eq_none]
    intro u hu
    simp [hnone u hu]
  rw [hfind]

theorem get_user_user_not_found_witness :
    get_user "s" 0
        (generate_token "s" "h" "00000000-0000-0000-0000-000000000000" 0 100
          "j") [] =
      .error (.badCredentials "User not found") :=
  get_user_user_not_found "s" 0
    (generate_token "s" "h" "00000000-0000-0000-0000-000000000000" 0 100 "j")
    "00000000-0000-0000-0000-000000000000" [] rfl (by simp)
